import Mathlib

/-!
Shallow embedding of the `praguematic` library (a Python client for the
Prague sorted-waste-stations API), covering the domain model
(`_models.py`), the query-parameter serialization and the retrieval
engine (`_client.py`).  Python `Optional[T]` fields become `Option T`,
tri-state predicates become `Option Bool` (`none` = unknown), raising
properties become `Except String`.  Date/time values play no role in any
verified property and are embedded as integers (timestamps).
-/

namespace Praguematic

/-- The `EAccessibilityType` enum: int-valued (`ACCESSIBLE = 1`, ...). -/
inductive EAccessibilityType where
  | ACCESSIBLE
  | ONLY_FOR_HOUSE_RESIDENTS
  | UNKNOWN
  deriving DecidableEq, Repr

/-- The integer `value` of an `EAccessibilityType` member. -/
def EAccessibilityType.val : EAccessibilityType → Int
  | .ACCESSIBLE => 1
  | .ONLY_FOR_HOUSE_RESIDENTS => 2
  | .UNKNOWN => 3

/-- The member name, as Python `Enum.name` would report it. -/
def EAccessibilityType.memberName : EAccessibilityType → String
  | .ACCESSIBLE => "ACCESSIBLE"
  | .ONLY_FOR_HOUSE_RESIDENTS => "ONLY_FOR_HOUSE_RESIDENTS"
  | .UNKNOWN => "UNKNOWN"

/-- The `ETrashType` enum: nine int-valued categories. -/
inductive ETrashType where
  | TINTED_GLASS
  | ELECTRIC_WASTE
  | METALS
  | BEVERAGE_CARTONS
  | PAPER
  | PLASTICS
  | CLEAR_GLASS
  | EDIBLE_FATS_AND_OILS
  | MULTICOMMODITY
  deriving DecidableEq, Repr

/-- The `EPickDay` str-enum: localized day abbreviations. -/
inductive EPickDay where
  | MONDAY
  | TUESDAY
  | WEDNESDAY
  | THURSDAY
  | FRIDAY
  | SATURDAY
  | SUNDAY
  deriving DecidableEq, Repr

/-- The string `value` of an `EPickDay` member. -/
def EPickDay.val : EPickDay → String
  | .MONDAY => "Po"
  | .TUESDAY => "Út"
  | .WEDNESDAY => "St"
  | .THURSDAY => "Čt"
  | .FRIDAY => "Pá"
  | .SATURDAY => "So"
  | .SUNDAY => "Ne"

/-- The `Accessibility` model: `description: str`, `id: EAccessibilityType`
(both required fields in the pydantic model). -/
structure Accessibility where
  description : String
  id : EAccessibilityType
  deriving DecidableEq, Repr

/-- The `CleaningFrequency` model (all fields optional, default `None`);
`next_pick` is a date, embedded as an integer. -/
structure CleaningFrequency where
  duration : Option String := none
  frequency : Option Int := none
  id : Option Int := none
  pick_days : Option String := none
  next_pick : Option Int := none
  deriving DecidableEq, Repr

/-- The `CleaningFrequency.period`: `None` when `id` is `None`; raises
`ValueError` unless `10 <= id <= 99`; otherwise `id // 10` (Python floor
division; on `[10,99]` this is ordinary integer division). -/
def CleaningFrequency.period (cf : CleaningFrequency) : Except String (Option Int) :=
  match cf.id with
  | none => .ok none
  | some i =>
      if 10 ≤ i ∧ i ≤ 99 then .ok (some (i / 10))
      else .error "ValueError: The value must be a two-digit integer"

/-- The `TrashType` model. -/
structure TrashType where
  description : Option String := none
  id : Option ETrashType := none
  deriving DecidableEq, Repr

/-- The `LastMeasurement` model; timestamps embedded as integers. -/
structure LastMeasurement where
  measured_at_utc : Option Int := none
  percent_calculated : Option Int := none
  prediction_utc : Option Int := none
  deriving DecidableEq, Repr

/-- The `Container` model (all fields optional, default `None`). -/
structure Container where
  cleaning_frequency : Option CleaningFrequency := none
  container_type : Option String := none
  trash_type : Option TrashType := none
  last_measurement : Option LastMeasurement := none
  last_pick : Option Int := none
  ksnko_id : Option Int := none
  container_id : Option Int := none
  sensor_code : Option String := none
  sensor_supplier : Option String := none
  sensor_id : Option String := none
  is_monitored : Option Bool := none
  deriving DecidableEq, Repr

/-- The `Container.is_suited_for`: unknown when `trash_type` or its `id` is
absent, else equality of the trash-type ids. -/
def Container.is_suited_for (c : Container) (trash_type : ETrashType) : Option Bool :=
  match c.trash_type with
  | none => none
  | some tt =>
      match tt.id with
      | none => none
      | some i => some (i = trash_type)

/-- Case-folding as Python `str.casefold`, restricted to ASCII letters
plus the accented letters occurring in `EPickDay` values. -/
def pyFoldChar (c : Char) : Char :=
  if c = 'Ú' then 'ú'
  else if c = 'Č' then 'č'
  else if c = 'Á' then 'á'
  else c.toLower

/-- Python substring test `needle in hay` over character lists. -/
def listContainsSub (needle hay : List Char) : Bool :=
  (List.range (hay.length + 1)).any fun i => needle.isPrefixOf (hay.drop i)

/-- Python `sub in s` on strings. -/
def pyInStr (needle hay : String) : Bool :=
  listContainsSub needle.data hay.data

/-- The `Container.is_picked_on`: unknown when `cleaning_frequency` or its
`pick_days` is absent, else case-folded substring containment of the
day's value in the pick-days string. -/
def Container.is_picked_on (c : Container) (day : EPickDay) : Option Bool :=
  match c.cleaning_frequency with
  | none => none
  | some cf =>
      match cf.pick_days with
      | none => none
      | some pd =>
          some (pyInStr (String.map pyFoldChar day.val) (String.map pyFoldChar pd))

/-- Python truthiness of an `Optional[bool]`: `None` and `False` are
falsy. -/
def optBoolTruthy : Option Bool → Bool
  | some true => true
  | _ => false

/-- The `Container.is_empty`: unknown when `is_monitored` is falsy or
the measurement or its percentage is absent; else `percent <= threshold`
(default threshold 5). -/
def Container.is_empty (c : Container) (threshold : Int := 5) : Option Bool :=
  if !optBoolTruthy c.is_monitored then none
  else
    match c.last_measurement with
    | none => none
    | some m =>
        match m.percent_calculated with
        | none => none
        | some p => some (p ≤ threshold)

/-- The `Container.is_full`: unknown under the same conditions; else
`percent >= threshold` (default threshold 95). -/
def Container.is_full (c : Container) (threshold : Int := 95) : Option Bool :=
  if !optBoolTruthy c.is_monitored then none
  else
    match c.last_measurement with
    | none => none
    | some m =>
        match m.percent_calculated with
        | none => none
        | some p => some (threshold ≤ p)

/-- The `WasteCollectionStation` model; `id` and `name` are required. -/
structure WasteCollectionStation where
  id : Int
  name : String
  accessibility : Option Accessibility := none
  containers : Option (List Container) := none
  district : Option String := none
  is_monitored : Option Bool := none
  station_number : Option String := none
  updated_at : Option Int := none
  deriving DecidableEq, Repr

/-- The `WasteCollectionStation.is_accessible_for`: unknown when
`accessibility` is absent (the source also guards `accessibility.id is
None`, but `Accessibility.id` is a required field so that branch cannot
fire); else id equality. -/
def WasteCollectionStation.is_accessible_for
    (s : WasteCollectionStation) (user_type : EAccessibilityType) : Option Bool :=
  match s.accessibility with
  | none => none
  | some a => some (a.id = user_type)

/-- The `WasteCollectionStation.has_container_for`: unknown when
`containers` is absent; else Python `any(cont.is_suited_for(t) ...)`,
where each `Optional[bool]` element is judged by truthiness (`None` and
`False` both falsy). -/
def WasteCollectionStation.has_container_for
    (s : WasteCollectionStation) (trash_type : ETrashType) : Option Bool :=
  match s.containers with
  | none => none
  | some cs => some (cs.any fun c => optBoolTruthy (c.is_suited_for trash_type))

/-- Python `str.split(sep)` for a one-character separator, over
character lists; always returns a non-empty list of parts. -/
def pySplitChar (sep : Char) : List Char → List (List Char)
  | [] => [[]]
  | c :: cs =>
      let rest := pySplitChar sep cs
      if c = sep then [] :: rest
      else
        match rest with
        | [] => [[c]]
        | p :: ps => (c :: p) :: ps

/-- The characters after the final occurrence of `sep` (the whole list
when `sep` does not occur): the spec's "substring after the final
hyphen". -/
def suffixAfterLast (sep : Char) (cs : List Char) : List Char :=
  ((cs.reverse.takeWhile fun c => c ≠ sep)).reverse

/-- Is `c` an ASCII decimal digit. -/
def isDig (c : Char) : Bool := '0' ≤ c ∧ c ≤ '9'

/-- Python `str.isspace`-style whitespace (restricted to ASCII). -/
def isPySpace (c : Char) : Bool :=
  c = ' ' ∨ c = '\t' ∨ c = '\n' ∨ c = '\r' ∨ c = '\x0b' ∨ c = '\x0c'

/-- Does `cs` form a valid unsigned decimal body for Python `int()`:
non-empty, made of digits and single underscores, where every
underscore sits between two digits. -/
def validIntBody (cs : List Char) : Bool :=
  match cs with
  | [] => false
  | c :: rest =>
      isDig c && validIntBodyAux rest
where
  /-- After a digit: digits may follow; an underscore must be followed
  by a digit again. -/
  validIntBodyAux : List Char → Bool
    | [] => true
    | c :: rest =>
        if isDig c then validIntBodyAux rest
        else if c = '_' then
          match rest with
          | [] => false
          | d :: rest2 => isDig d && validIntBodyAux rest2
        else false

/-- Numeric value of a digits-and-underscores body. -/
def intBodyVal (cs : List Char) : Nat :=
  cs.foldl (fun acc c => if isDig c then acc * 10 + (c.toNat - 48) else acc) 0

/-- Python built-in `int(s)` on a decimal string: strips surrounding
whitespace, allows one optional sign, then requires a valid digit body;
raises `ValueError` otherwise. -/
def pyInt (s : String) : Except String Int :=
  let cs := (s.data.dropWhile isPySpace).reverse.dropWhile isPySpace |>.reverse
  let (neg, body) :=
    match cs with
    | '+' :: rest => (false, rest)
    | '-' :: rest => (true, rest)
    | _ => (false, cs)
  if validIntBody body then
    .ok (if neg then -(intBodyVal body : Int) else (intBodyVal body : Int))
  else .error "ValueError: invalid literal for int"

/-- The `WasteCollectionStation.district_number`: `None` when `district` is
absent; else `int(district.split(sep)[-1])` with a hyphen separator,
which raises on a malformed numeric suffix. -/
def WasteCollectionStation.district_number
    (s : WasteCollectionStation) : Except String (Option Int) :=
  match s.district with
  | none => .ok none
  | some d =>
      match (pySplitChar '-' d.data).getLast? with
      | none => .error "unreachable: split is never empty"
      | some part => (pyInt (String.mk part)).map some

/-- The `Coordinates` named tuple; floats embedded as rationals. -/
structure Coordinates where
  longitude : Rat
  latitude : Rat
  deriving DecidableEq, Repr

/-- The `Geometry` model. -/
structure Geometry where
  coordinates : Option Coordinates := none
  type : Option String := none
  deriving DecidableEq, Repr

/-- The `WasteCollectionStationFeature` model. -/
structure WasteCollectionStationFeature where
  type : Option String := none
  geometry : Option Geometry := none
  properties : Option WasteCollectionStation := none
  deriving DecidableEq, Repr

/-- The `WasteCollectionStationFeature.station`: read-only alias for
`properties`. -/
def WasteCollectionStationFeature.station
    (f : WasteCollectionStationFeature) : Option WasteCollectionStation :=
  f.properties

/-- The `WasteCollectionStationFeatureCollection` model. -/
structure WasteCollectionStationFeatureCollection where
  type : Option String := none
  features : Option (List WasteCollectionStationFeature) := none
  deriving DecidableEq, Repr

namespace WasteCollectionStationFeatureCollection

/-- The feature list a Python `for`/truthiness test effectively sees:
`None` behaves as the empty list. -/
def featList (c : WasteCollectionStationFeatureCollection) :
    List WasteCollectionStationFeature :=
  c.features.getD []

/-- Add a name to the running Python `set` of seen station names
(modelled as a duplicate-free list; only membership matters). -/
def insertName (ns : List String) (n : String) : List String :=
  if n ∈ ns then ns else n :: ns

/-- The station names occurring in a feature list, in order (features
without `properties` contribute none). -/
def namesOfList (l : List WasteCollectionStationFeature) : List String :=
  l.filterMap fun f => f.properties.map fun p => p.name

/-- The station names occurring in a collection. -/
def namesOf (c : WasteCollectionStationFeatureCollection) : List String :=
  namesOfList c.featList

/-- One step of accumulating the Python name set: a feature without
`properties` contributes nothing, otherwise its station name is added. -/
def namesStep (ns : List String) (f : WasteCollectionStationFeature) : List String :=
  match f.properties with
  | none => ns
  | some p => insertName ns p.name

/-- One step of the loops in `__add__`/`__sub__` that append a feature
only when it has `properties` and a station name outside `ns`. -/
def filterStep (ns : List String) (fs : List WasteCollectionStationFeature)
    (f : WasteCollectionStationFeature) : List WasteCollectionStationFeature :=
  match f.properties with
  | none => fs
  | some p => if p.name ∈ ns then fs else fs ++ [f]

/-- One step of the first loop of `__add__`: append the feature
unconditionally and record its station name when present. -/
def addStepLeft (acc : List WasteCollectionStationFeature × List String)
    (f : WasteCollectionStationFeature) :
    List WasteCollectionStationFeature × List String :=
  (acc.1 ++ [f], namesStep acc.2 f)

/-- Declarative keep-predicate of the conditional appends: the feature
has `properties` and its station name avoids `ns`. -/
def novelIn (ns : List String) (f : WasteCollectionStationFeature) : Bool :=
  match f.properties with
  | none => false
  | some p => decide (p.name ∉ ns)

/-- The `__add__` (union): walk the left operand accumulating its features
and the set of its station names, then append each right-hand feature
that has `properties` and a name not yet seen; the type tag comes from
the left operand. -/
def add (a b : WasteCollectionStationFeatureCollection) :
    WasteCollectionStationFeatureCollection :=
  let s1 := a.featList.foldl addStepLeft ([], [])
  let feats := b.featList.foldl (filterStep s1.2) s1.1
  { type := a.type, features := some feats }

/-- The `__sub__` (difference): empty/absent left operand gives an empty
result; empty/absent right operand gives a copy of the left; otherwise
keep the left features whose station name is not among the right
operand's names (features without `properties` are dropped). -/
def sub (a b : WasteCollectionStationFeatureCollection) :
    WasteCollectionStationFeatureCollection :=
  if a.featList = [] then { type := a.type, features := some [] }
  else if b.featList = [] then { type := a.type, features := some a.featList }
  else
    let otherNames := b.featList.foldl namesStep []
    let feats := a.featList.foldl (filterStep otherNames) []
    { type := a.type, features := some feats }

end WasteCollectionStationFeatureCollection

/-- A JSON-mode serialized Python value as it appears in the dumped
parameter dict. -/
inductive PyValue where
  | int (n : Int)
  | str (s : String)
  | bool (b : Bool)
  deriving DecidableEq, Repr

/-- Python `','.join(items)`: succeeds with the comma-joined string when
every item is a `str`; raises `TypeError` on any non-string item. -/
def pyJoinComma (items : List PyValue) : Except String String :=
  if items.all fun v => match v with | .str _ => true | _ => false then
    .ok (String.intercalate ","
      (items.map fun v => match v with | .str s => s | _ => ""))
  else .error "TypeError: sequence item: expected str instance"

/-- The `ser_coordinates`: renders `"<lat>,<lon>"` (float rendering is
abstracted by the rational's `toString`; no verified property depends
on the numeral text). -/
def ser_coordinates (value : Coordinates) : String :=
  toString value.latitude ++ "," ++ toString value.longitude

/-- The `ser_district_numbers`: comma-join of `praha-<n>` tokens over the
set's iteration order (the Python `set[int]` is embedded as the list of
its elements in iteration order). -/
def ser_district_numbers (value : List Int) : Except String String :=
  pyJoinComma (value.map fun number => .str ("praha-" ++ toString number))

/-- The `ser_accessibilities`: comma-join of `a11y.value` over the set's
iteration order.  `EAccessibilityType` members carry integer values, so
the joined items are ints, not strings. -/
def ser_accessibilities (value : List EAccessibilityType) : Except String String :=
  pyJoinComma (value.map fun a11y => .int a11y.val)

/-- The `WasteCollectionStationServiceGetParams`.  Each field is wrapped in
an outer `Option` recording whether the caller explicitly set it
(pydantic tracks this for `exclude_unset`): `none` = left unset,
`some v` = explicitly set to `v` (which may itself be `none` = Python
`None`).  Defaults: `offset = 0`, `limit = 10000`, all other fields
`None`.  Python sets are embedded as lists in iteration order. -/
structure WasteCollectionStationServiceGetParams where
  coordinates : Option (Option Coordinates) := none
  range : Option (Option Int) := none
  offset : Option (Option Int) := none
  limit : Option (Option Int) := none
  district_numbers : Option (Option (List Int)) := none
  accessibilities : Option (Option (List EAccessibilityType)) := none
  only_monitored : Option (Option Bool) := none
  ksnko_id : Option (Option Int) := none
  deriving Repr

namespace WasteCollectionStationServiceGetParams

/-- The `offset` attribute value seen on the model instance (default 0
when the caller did not set it). -/
def offsetAttr (p : WasteCollectionStationServiceGetParams) : Option Int :=
  p.offset.getD (some 0)

/-- The `limit` attribute value seen on the model instance (default
10000 when the caller did not set it). -/
def limitAttr (p : WasteCollectionStationServiceGetParams) : Option Int :=
  p.limit.getD (some 10000)

end WasteCollectionStationServiceGetParams

/-- The `WasteCollectionStationService._get_params`:
`model_dump(mode=json, by_alias, exclude_unset, exclude_none,
exclude_defaults)` — a field appears (under its alias, in declaration
order) iff the caller set it, its value is not `None`, and its value
differs from the field default (`0` for offset, `10000` for limit,
`None` elsewhere); the field serializers run on the surviving values
and may raise. -/
def getParamsDump (p : WasteCollectionStationServiceGetParams) :
    Except String (List (String × PyValue)) := do
  let l1 : List (String × PyValue) :=
    match p.coordinates with
    | some (some c) => [("latlng", .str (ser_coordinates c))]
    | _ => []
  let l2 : List (String × PyValue) :=
    match p.range with
    | some (some r) => [("range", .int r)]
    | _ => []
  let l3 : List (String × PyValue) :=
    match p.offset with
    | some (some o) => if o ≠ 0 then [("offset", .int o)] else []
    | _ => []
  let l4 : List (String × PyValue) :=
    match p.limit with
    | some (some l) => if l ≠ 10000 then [("limit", .int l)] else []
    | _ => []
  let l5 : List (String × PyValue) ←
    match p.district_numbers with
    | some (some ds) => do
        let s ← ser_district_numbers ds
        pure [("districts", .str s)]
    | _ => pure []
  let l6 : List (String × PyValue) ←
    match p.accessibilities with
    | some (some acc) => do
        let s ← ser_accessibilities acc
        pure [("accessibilities", .str s)]
    | _ => pure []
  let l7 : List (String × PyValue) :=
    match p.only_monitored with
    | some (some b) => [("onlyMonitored", .bool b)]
    | _ => []
  let l8 : List (String × PyValue) :=
    match p.ksnko_id with
    | some (some k) => [("ksnkoId", .int k)]
    | _ => []
  pure (l1 ++ l2 ++ l3 ++ l4 ++ l5 ++ l6 ++ l7 ++ l8)

/-- One mocked HTTP response: a status code and an (already parsed)
body; deserialization failure plays no role in the verified claims. -/
structure MockResponse (α : Type) where
  status : Nat
  body : α
  deriving Repr

/-- The `WasteCollectionStationService._get_waste_stations` retry loop,
from attempt number `attempt` (Python starts at 1); `respond i` is the
response to the `i`-th request (0-based).  A 2xx status returns the
body; a non-2xx status raises unless it is exactly 429 and the attempt
counter has not passed `maxRetries`, in which case the client sleeps
`halfPeriod` seconds and retries.  Returns the outcome together with
the list of sleep durations performed, in order. -/
def getWasteStationsFrom {α : Type} (respond : Nat → MockResponse α)
    (halfPeriod : Rat) (maxRetries : Nat) (attempt : Nat) :
    Except Nat α × List Rat :=
  let r := respond (attempt - 1)
  if r.status / 100 = 2 then (.ok r.body, [])
  else if _h : r.status ≠ 429 ∨ maxRetries < attempt then (.error r.status, [])
  else
    let rest := getWasteStationsFrom respond halfPeriod maxRetries (attempt + 1)
    (rest.1, halfPeriod :: rest.2)
termination_by maxRetries + 1 - attempt
decreasing_by
  rw [not_or, not_lt] at _h
  omega

/-- The `_get_waste_stations` from the first attempt, with the sleep
duration `rate_limit_period / 2` as in the source. -/
def getWasteStations {α : Type} (respond : Nat → MockResponse α)
    (rate_limit_period : Nat) (maxRetries : Nat) : Except Nat α × List Rat :=
  getWasteStationsFrom respond ((rate_limit_period : Rat) / 2) maxRetries 1

/-- Python truthiness of an `Optional[int]`: `None` and `0` are falsy. -/
def optIntTruthy : Option Int → Bool
  | none => false
  | some n => n ≠ 0

/-- The `WasteCollectionStationService.iter_waste_stations` pagination
loop.  `fetch offset` is the `features` field of the page the server
returns for that offset (`none` = the JSON had no features).  Each
iteration fetches, yields the page, stops if the page is empty or
absent; otherwise, when the model's `limit` attribute is truthy it
stops on a short page and advances the offset by the limit, and when it
is falsy it advances by the returned feature count.  `fuel` bounds the
number of requests observed (the source loop is `while True`). -/
def iterWasteStations {α : Type} (fetch : Int → Option (List α))
    (limit : Option Int) : Int → Nat → List (Option (List α))
  | _, 0 => []
  | offset, fuel + 1 =>
      let page := fetch offset
      let fs := page.getD []
      if fs.isEmpty then [page]
      else if optIntTruthy limit then
        let l := limit.getD 0
        if (fs.length : Int) < l then [page]
        else page :: iterWasteStations fetch limit (offset + l) fuel
      else page :: iterWasteStations fetch limit (offset + fs.length) fuel

/-- Mock server for the first pagination scenario: pages of sizes
10000, 10000, 4321 at offsets 0, 10000, 20000; empty elsewhere. -/
def mockFetchShort (offset : Int) : Option (List Nat) :=
  if offset = 0 ∨ offset = 10000 then some (List.replicate 10000 0)
  else if offset = 20000 then some (List.replicate 4321 0)
  else some []

/-- Mock server for the second pagination scenario: three full pages of
10000 at offsets 0, 10000, 20000; empty elsewhere. -/
def mockFetchFull (offset : Int) : Option (List Nat) :=
  if offset = 0 ∨ offset = 10000 ∨ offset = 20000 then
    some (List.replicate 10000 0)
  else some []

/-- Mock server returning 429 exactly twice, then 200. -/
def respond429Twice {α : Type} (page : α) (i : Nat) : MockResponse α :=
  if i < 2 then ⟨429, page⟩ else ⟨200, page⟩

/-- A station whose only container carries no trash-type data. -/
def stationMissingContainerData : WasteCollectionStation :=
  { id := 1, name := "Example", containers := some [{}] }

/-- The query object of the serialization claim: the caller sets
`district_numbers` to the set with 7 and 10 (in that iteration order)
and `accessibilities` to the singleton `ACCESSIBLE` set. -/
def exampleGetParams : WasteCollectionStationServiceGetParams :=
  { district_numbers := some (some [7, 10]),
    accessibilities := some (some [.ACCESSIBLE]) }

/-- Fixture station named Alpha. -/
def exampleStationA : WasteCollectionStation := { id := 1, name := "Alpha" }

/-- Fixture station named Beta. -/
def exampleStationB : WasteCollectionStation := { id := 2, name := "Beta" }

/-- Fixture feature wrapping Alpha. -/
def exampleFeatureA : WasteCollectionStationFeature :=
  { properties := some exampleStationA }

/-- Fixture feature wrapping Beta. -/
def exampleFeatureB : WasteCollectionStationFeature :=
  { properties := some exampleStationB }

/-- Fixture feature with absent `properties`. -/
def exampleFeatureBare : WasteCollectionStationFeature := {}

/-- Fixture collection holding Alpha, a propertyless feature, Beta. -/
def exampleCollAB : WasteCollectionStationFeatureCollection :=
  { type := some "FeatureCollection",
    features := some [exampleFeatureA, exampleFeatureBare, exampleFeatureB] }

/-- Fixture collection holding only Beta. -/
def exampleCollB : WasteCollectionStationFeatureCollection :=
  { type := some "X", features := some [exampleFeatureB] }

/-- Fixture collection with absent features. -/
def exampleCollNone : WasteCollectionStationFeatureCollection :=
  { type := some "Y", features := none }

namespace WasteCollectionStationFeatureCollection

lemma mem_insertName (ns : List String) (m n : String) :
    n ∈ insertName ns m ↔ n = m ∨ n ∈ ns := by
  unfold insertName
  by_cases h : m ∈ ns
  · rw [if_pos h]
    constructor
    · intro hn
      exact Or.inr hn
    · intro hn
      rcases hn with hn | hn
      · rw [hn]
        exact h
      · exact hn
  · rw [if_neg h]
    exact List.mem_cons

lemma foldl_namesStep_mem (l : List WasteCollectionStationFeature)
    (ns0 : List String) (n : String) :
    n ∈ l.foldl namesStep ns0 ↔ n ∈ ns0 ∨ n ∈ namesOfList l := by
  induction l generalizing ns0 with
  | nil => simp [namesOfList]
  | cons f t ih =>
      rw [List.foldl_cons, ih]
      cases hf : f.properties with
      | none => simp [namesStep, hf, namesOfList, List.filterMap_cons]
      | some p =>
          simp only [namesStep, hf, namesOfList, List.filterMap_cons,
            Option.map_some', mem_insertName, List.mem_cons]
          tauto

lemma foldl_addStepLeft (l : List WasteCollectionStationFeature)
    (fs0 : List WasteCollectionStationFeature) (ns0 : List String) :
    l.foldl addStepLeft (fs0, ns0) = (fs0 ++ l, l.foldl namesStep ns0) := by
  induction l generalizing fs0 ns0 with
  | nil => simp
  | cons f t ih =>
      rw [List.foldl_cons, List.foldl_cons,
        show addStepLeft (fs0, ns0) f = (fs0 ++ [f], namesStep ns0 f) from rfl,
        ih]
      simp

lemma foldl_filterStep (ns : List String) (l : List WasteCollectionStationFeature)
    (fs0 : List WasteCollectionStationFeature) :
    l.foldl (filterStep ns) fs0 = fs0 ++ l.filter (novelIn ns) := by
  induction l generalizing fs0 with
  | nil => simp
  | cons f t ih =>
      rw [List.foldl_cons, ih]
      cases hf : f.properties with
      | none => simp [filterStep, hf, novelIn, List.filter_cons]
      | some p =>
          by_cases hmem : p.name ∈ ns
          · simp [filterStep, hf, hmem, novelIn, List.filter_cons]
          · simp [filterStep, hf, hmem, novelIn, List.filter_cons]

lemma mem_namesOfList_of_mem {l : List WasteCollectionStationFeature}
    {f : WasteCollectionStationFeature} {p : WasteCollectionStation}
    (hf : f ∈ l) (hp : f.properties = some p) :
    p.name ∈ namesOfList l := by
  rw [namesOfList, List.mem_filterMap]
  exact ⟨f, hf, by rw [hp]; rfl⟩

lemma filter_novelIn_congr {ns ns2 : List String}
    (h : ∀ n, n ∈ ns ↔ n ∈ ns2) (l : List WasteCollectionStationFeature) :
    l.filter (novelIn ns) = l.filter (novelIn ns2) := by
  apply List.filter_congr
  intro f _
  cases hf : f.properties with
  | none => simp [novelIn, hf]
  | some p => simp [novelIn, hf, h]

lemma add_features_eq (a b : WasteCollectionStationFeatureCollection) :
    (add a b).features =
      some (a.featList ++ b.featList.filter (novelIn (namesOf a))) := by
  simp only [add, foldl_addStepLeft, foldl_filterStep]
  refine congrArg some ?_
  refine congrArg (a.featList ++ ·) ?_
  apply filter_novelIn_congr
  intro n
  rw [foldl_namesStep_mem]
  simp [namesOf]

lemma add_self_features (a : WasteCollectionStationFeatureCollection) :
    (add a a).features = some a.featList := by
  rw [add_features_eq]
  suffices h : a.featList.filter (novelIn (namesOf a)) = [] by
    rw [h, List.append_nil]
  rw [List.filter_eq_nil_iff]
  intro f hf
  cases hfp : f.properties with
  | none => simp [novelIn, hfp]
  | some p =>
      simp only [novelIn, hfp, decide_eq_true_eq, Bool.not_eq_true]
      simp only [decide_not, Bool.not_eq_true', decide_eq_false_iff_not, Decidable.not_not]
      exact mem_namesOfList_of_mem hf hfp

lemma sub_features_eq (a b : WasteCollectionStationFeatureCollection)
    (ha : a.featList ≠ []) (hb : b.featList ≠ []) :
    (sub a b).features = some (a.featList.filter (novelIn (namesOf b))) := by
  rw [sub, if_neg ha, if_neg hb]
  simp only [foldl_filterStep, List.nil_append]
  refine congrArg some ?_
  apply filter_novelIn_congr
  intro n
  rw [foldl_namesStep_mem]
  simp [namesOf]

lemma sub_empty_right (a b : WasteCollectionStationFeatureCollection)
    (hb : b.featList = []) :
    sub a b = { type := a.type, features := some a.featList } := by
  rw [sub]
  by_cases ha : a.featList = []
  · rw [if_pos ha, ha]
  · rw [if_neg ha, if_pos hb]

lemma sub_empty_left (a b : WasteCollectionStationFeatureCollection)
    (ha : a.featList = []) :
    (sub a b).features = some [] := by
  rw [sub, if_pos ha]

/-- C5: for all feature collections `A` and `B`, `A + B` keeps all of
`A`'s features first in their original order, then appends those of
`B`'s features whose station name is not already present in `A`, in
their original order; the result's type tag is taken from `A`; and
`A + A` equals `A` in membership terms (its feature list is exactly
`A`'s effective feature list). -/
theorem union_left_then_novel_right_and_idempotent :
    (∀ a b : WasteCollectionStationFeatureCollection,
        (add a b).features =
          some (a.featList ++ b.featList.filter (novelIn (namesOf a)))) ∧
    (∀ a b : WasteCollectionStationFeatureCollection, (add a b).type = a.type) ∧
    (∀ a : WasteCollectionStationFeatureCollection,
        (add a a).features = some a.featList) :=
  ⟨add_features_eq, fun _ _ => rfl, add_self_features⟩

/-- C6: for all feature collections `A` and `B` with non-empty feature
lists, `A - B` contains exactly those features of `A` whose station
name does not appear among `B`'s features, in `A`'s original order;
when `B` has no features the result is a content-equal copy of `A`;
when `A` has no features the result is empty regardless of `B`. -/
theorem difference_by_station_names :
    (∀ a b : WasteCollectionStationFeatureCollection,
        a.featList ≠ [] → b.featList ≠ [] →
        (sub a b).features =
          some (a.featList.filter (novelIn (namesOf b)))) ∧
    (∀ a b : WasteCollectionStationFeatureCollection, b.featList = [] →
        (sub a b).features = some a.featList ∧ (sub a b).type = a.type) ∧
    (∀ a b : WasteCollectionStationFeatureCollection, a.featList = [] →
        (sub a b).features = some []) := by
  refine ⟨sub_features_eq, ?_, sub_empty_left⟩
  intro a b hb
  rw [sub_empty_right a b hb]
  exact ⟨rfl, rfl⟩

/-- Witness for C6 at concrete collections. -/
theorem difference_by_station_names_witness :
    (sub exampleCollAB exampleCollB).features =
      some (exampleCollAB.featList.filter (novelIn (namesOf exampleCollB))) ∧
    (sub exampleCollAB exampleCollNone).features = some exampleCollAB.featList ∧
    (sub exampleCollNone exampleCollB).features = some [] :=
  ⟨difference_by_station_names.1 exampleCollAB exampleCollB
      (by decide) (by decide),
   (difference_by_station_names.2.1 exampleCollAB exampleCollNone (by decide)).1,
   difference_by_station_names.2.2 exampleCollNone exampleCollB (by decide)⟩

/-- C10: a feature whose `properties` is absent never enters the result
from the filtered operand: in a union, the propertyless features of the
result are exactly those of the left operand (the right contributes
none), and in a difference of two collections with non-empty feature
lists, no propertyless feature survives. -/
theorem propertyless_features_dropped_from_filtered_operand :
    (∀ a b : WasteCollectionStationFeatureCollection,
        (add a b).featList.filter (fun f => f.properties.isNone) =
          a.featList.filter (fun f => f.properties.isNone)) ∧
    (∀ a b : WasteCollectionStationFeatureCollection,
        a.featList ≠ [] → b.featList ≠ [] →
        ∀ f ∈ (sub a b).featList, f.properties ≠ none) := by
  constructor
  · intro a b
    have hfl : (add a b).featList =
        a.featList ++ b.featList.filter (novelIn (namesOf a)) := by
      rw [featList, add_features_eq]
      rfl
    rw [hfl, List.filter_append]
    suffices h2 : (b.featList.filter (novelIn (namesOf a))).filter
        (fun f => f.properties.isNone) = [] by
      rw [h2, List.append_nil]
    rw [List.filter_eq_nil_iff]
    intro f hf
    rcases List.mem_filter.mp hf with ⟨_, hnov⟩
    cases hfp : f.properties with
    | none => simp [novelIn, hfp] at hnov
    | some p => simp [hfp]
  · intro a b ha hb f hf
    have hfl : (sub a b).featList =
        a.featList.filter (novelIn (namesOf b)) := by
      rw [featList, sub_features_eq a b ha hb]
      rfl
    rw [hfl] at hf
    rcases List.mem_filter.mp hf with ⟨_, hnov⟩
    cases hfp : f.properties with
    | none => simp [novelIn, hfp] at hnov
    | some p => simp [hfp]

/-- Witness for C10 at concrete collections. -/
theorem propertyless_features_dropped_witness :
    exampleCollAB.featList ≠ [] ∧ exampleCollB.featList ≠ [] ∧
    (∀ f ∈ (sub exampleCollAB exampleCollB).featList, f.properties ≠ none) :=
  ⟨by decide, by decide,
   propertyless_features_dropped_from_filtered_operand.2
     exampleCollAB exampleCollB (by decide) (by decide)⟩

end WasteCollectionStationFeatureCollection

lemma optBoolTruthy_eq_true (o : Option Bool) :
    optBoolTruthy o = true ↔ o = some true := by
  cases o with
  | none => simp [optBoolTruthy]
  | some b => cases b <;> simp [optBoolTruthy]

/-- C3 counterexample: a station whose containers list is present but
whose single container lacks the trash-type data needed to decide
suitability; `has_container_for` answers `some false`, not the unknown
state, refuting the claim at this input. -/
theorem tri_state_counterexample :
    stationMissingContainerData.has_container_for ETrashType.PAPER = some false ∧
    stationMissingContainerData.has_container_for ETrashType.PAPER ≠ none := by
  refine ⟨rfl, ?_⟩
  intro h
  exact Option.noConfusion h

/-- C3 (amended): the predicates `is_suited_for`, `is_picked_on`,
`is_empty`, `is_full`, `is_accessible_for` return the unknown state
whenever a required upstream field is absent, and `has_container_for`
returns unknown exactly when the containers list itself is absent; when
containers are present it returns a definite boolean — true iff some
container is definitely suited — so missing per-container data can
yield `false` rather than unknown. -/
theorem tri_state_unknown_on_missing_fields :
    (∀ (c : Container) (t : ETrashType), c.trash_type = none →
        c.is_suited_for t = none) ∧
    (∀ (c : Container) (t : ETrashType) (tt : TrashType),
        c.trash_type = some tt → tt.id = none → c.is_suited_for t = none) ∧
    (∀ (c : Container) (d : EPickDay), c.cleaning_frequency = none →
        c.is_picked_on d = none) ∧
    (∀ (c : Container) (d : EPickDay) (cf : CleaningFrequency),
        c.cleaning_frequency = some cf → cf.pick_days = none →
        c.is_picked_on d = none) ∧
    (∀ (c : Container) (t : Int),
        c.is_monitored = none ∨ c.last_measurement = none ∨
          (∃ m, c.last_measurement = some m ∧ m.percent_calculated = none) →
        c.is_empty t = none ∧ c.is_full t = none) ∧
    (∀ (s : WasteCollectionStation) (u : EAccessibilityType),
        s.accessibility = none → s.is_accessible_for u = none) ∧
    (∀ (s : WasteCollectionStation) (t : ETrashType), s.containers = none →
        s.has_container_for t = none) ∧
    (∀ (s : WasteCollectionStation) (t : ETrashType) (cs : List Container),
        s.containers = some cs →
        s.has_container_for t ≠ none ∧
          (s.has_container_for t = some true ↔
            ∃ c ∈ cs, c.is_suited_for t = some true)) := by
  refine ⟨?_, ?_, ?_, ?_, ?_, ?_, ?_, ?_⟩
  · intro c t h
    simp [Container.is_suited_for, h]
  · intro c t tt h hid
    simp [Container.is_suited_for, h, hid]
  · intro c d h
    simp [Container.is_picked_on, h]
  · intro c d cf h hpd
    simp [Container.is_picked_on, h, hpd]
  · intro c t h
    rcases h with h | h | ⟨m, hm, hp⟩
    · constructor <;> simp [Container.is_empty, Container.is_full, optBoolTruthy, h]
    · cases hmon : optBoolTruthy c.is_monitored <;>
        constructor <;> simp [Container.is_empty, Container.is_full, hmon, h]
    · cases hmon : optBoolTruthy c.is_monitored <;>
        constructor <;> simp [Container.is_empty, Container.is_full, hmon, hm, hp]
  · intro s u h
    simp [WasteCollectionStation.is_accessible_for, h]
  · intro s t h
    simp [WasteCollectionStation.has_container_for, h]
  · intro s t cs h
    constructor
    · simp [WasteCollectionStation.has_container_for, h]
    · simp only [WasteCollectionStation.has_container_for, h, Option.some_inj,
        List.any_eq_true, optBoolTruthy_eq_true]

/-- Witness for the amended C3 at concrete inputs. -/
theorem tri_state_unknown_on_missing_fields_witness :
    ({} : Container).is_suited_for ETrashType.PAPER = none ∧
    ({} : Container).is_picked_on EPickDay.MONDAY = none ∧
    ({} : Container).is_empty 5 = none ∧
    ({ id := 1, name := "w" } : WasteCollectionStation).is_accessible_for
        EAccessibilityType.ACCESSIBLE = none ∧
    ({ id := 1, name := "w" } : WasteCollectionStation).has_container_for
        ETrashType.PAPER = none ∧
    stationMissingContainerData.has_container_for ETrashType.PAPER ≠ none :=
  ⟨tri_state_unknown_on_missing_fields.1 {} ETrashType.PAPER rfl,
   tri_state_unknown_on_missing_fields.2.2.1 {} EPickDay.MONDAY rfl,
   (tri_state_unknown_on_missing_fields.2.2.2.2.1 {} 5 (Or.inl rfl)).1,
   tri_state_unknown_on_missing_fields.2.2.2.2.2.1 { id := 1, name := "w" }
     EAccessibilityType.ACCESSIBLE rfl,
   tri_state_unknown_on_missing_fields.2.2.2.2.2.2.1 { id := 1, name := "w" }
     ETrashType.PAPER rfl,
   (tri_state_unknown_on_missing_fields.2.2.2.2.2.2.2
     stationMissingContainerData ETrashType.PAPER [{}] rfl).1⟩

/-- C7: `is_empty` and `is_full` return unknown whenever `is_monitored`
is falsy (absent or false) or the last measurement or its percentage is
absent; otherwise they compare the measured percentage against the
threshold with `<=` and `>=` respectively. -/
theorem is_empty_is_full_threshold_comparisons :
    (∀ (c : Container) (t : Int),
        c.is_monitored = none ∨ c.is_monitored = some false ∨
          c.last_measurement = none ∨
          (∃ m, c.last_measurement = some m ∧ m.percent_calculated = none) →
        c.is_empty t = none ∧ c.is_full t = none) ∧
    (∀ (c : Container) (m : LastMeasurement) (p t : Int),
        c.is_monitored = some true → c.last_measurement = some m →
        m.percent_calculated = some p →
        c.is_empty t = some (decide (p ≤ t)) ∧
          c.is_full t = some (decide (t ≤ p))) := by
  constructor
  · intro c t h
    rcases h with h | h | h | ⟨m, hm, hp⟩
    · constructor <;> simp [Container.is_empty, Container.is_full, optBoolTruthy, h]
    · constructor <;> simp [Container.is_empty, Container.is_full, optBoolTruthy, h]
    · cases hmon : optBoolTruthy c.is_monitored <;>
        constructor <;> simp [Container.is_empty, Container.is_full, hmon, h]
    · cases hmon : optBoolTruthy c.is_monitored <;>
        constructor <;> simp [Container.is_empty, Container.is_full, hmon, hm, hp]
  · intro c m p t hmon hm hp
    constructor <;>
      simp [Container.is_empty, Container.is_full, optBoolTruthy, hmon, hm, hp]

/-- Witness for C7 at a concrete monitored container with percentage 4
and at a container with a falsy monitored flag. -/
theorem is_empty_is_full_threshold_comparisons_witness :
    ({ is_monitored := some true,
       last_measurement := some { percent_calculated := some 4 } } :
        Container).is_empty 5 = some true ∧
    ({ is_monitored := some false,
       last_measurement := some { percent_calculated := some 4 } } :
        Container).is_empty 5 = none := by
  constructor
  · have h := (is_empty_is_full_threshold_comparisons.2
      { is_monitored := some true,
        last_measurement := some { percent_calculated := some 4 } }
      { percent_calculated := some 4 } 4 5 rfl rfl rfl).1
    simpa using h
  · exact (is_empty_is_full_threshold_comparisons.1
      { is_monitored := some false,
        last_measurement := some { percent_calculated := some 4 } }
      5 (Or.inr (Or.inl rfl))).1

/-- C8: `period` equals `id / 10` for every integer id in `[10, 99]`
and raises a `ValueError` for every integer id outside that range. -/
theorem period_two_digit_contract :
    (∀ (cf : CleaningFrequency) (i : Int), cf.id = some i →
        10 ≤ i → i ≤ 99 → cf.period = .ok (some (i / 10))) ∧
    (∀ (cf : CleaningFrequency) (i : Int), cf.id = some i →
        ¬(10 ≤ i ∧ i ≤ 99) →
        cf.period = .error "ValueError: The value must be a two-digit integer") := by
  constructor
  · intro cf i hid h1 h2
    simp [CleaningFrequency.period, hid, h1, h2]
  · intro cf i hid h
    simp [CleaningFrequency.period, hid, h]

lemma pySplitChar_ne_nil (sep : Char) (cs : List Char) :
    pySplitChar sep cs ≠ [] := by
  cases cs with
  | nil => simp [pySplitChar]
  | cons c t =>
      by_cases h : c = sep
      · simp [pySplitChar, h]
      · simp only [pySplitChar, if_neg h]
        cases htr : pySplitChar sep t with
        | nil => simp
        | cons p ps => simp

lemma pySplitChar_of_not_mem (sep : Char) (cs : List Char) (h : sep ∉ cs) :
    pySplitChar sep cs = [cs] := by
  induction cs with
  | nil => rfl
  | cons c t ih =>
      have hc : ¬(c = sep) := by
        intro hcc
        exact h (by rw [hcc]; exact List.mem_cons_self _ _)
      have ht : sep ∉ t := fun hm => h (List.mem_cons_of_mem c hm)
      simp [pySplitChar, hc, ih ht]

lemma two_le_length_pySplitChar (sep : Char) (cs : List Char) (h : sep ∈ cs) :
    2 ≤ (pySplitChar sep cs).length := by
  induction cs with
  | nil => exact absurd h (List.not_mem_nil sep)
  | cons c t ih =>
      by_cases hc : c = sep
      · simp only [pySplitChar, if_pos hc, List.length_cons]
        cases htr : pySplitChar sep t with
        | nil => exact absurd htr (pySplitChar_ne_nil sep t)
        | cons p ps => simp
      · have ht : sep ∈ t := by
          rcases List.mem_cons.mp h with h1 | h1
          · exact absurd h1.symm hc
          · exact h1
        have ih2 := ih ht
        cases htr : pySplitChar sep t with
        | nil => exact absurd htr (pySplitChar_ne_nil sep t)
        | cons p ps =>
            rw [htr] at ih2
            simp only [pySplitChar, if_neg hc, htr, List.length_cons] at ih2 ⊢
            omega

lemma takeWhile_append_singleton (p : Char → Bool) (l : List Char) (x : Char)
    (hx : p x = false) : (l ++ [x]).takeWhile p = l.takeWhile p := by
  induction l with
  | nil => simp [List.takeWhile_cons, hx]
  | cons c t ih =>
      by_cases hc : p c
      · simp [List.takeWhile_cons, hc, ih]
      · simp [List.takeWhile_cons, hc]

lemma takeWhile_eq_self_of_all (p : Char → Bool) (l : List Char)
    (h : ∀ a ∈ l, p a = true) : l.takeWhile p = l := by
  induction l with
  | nil => rfl
  | cons c t ih =>
      have hc := h c (List.mem_cons_self _ _)
      simp [List.takeWhile_cons, hc,
        ih fun a ha => h a (List.mem_cons_of_mem c ha)]

lemma takeWhile_append_of_false_mem (p : Char → Bool) (l l2 : List Char)
    (h : ∃ a ∈ l, p a = false) : (l ++ l2).takeWhile p = l.takeWhile p := by
  induction l with
  | nil =>
      rcases h with ⟨a, ha, _⟩
      exact absurd ha (List.not_mem_nil a)
  | cons c t ih =>
      by_cases hc : p c
      · have ht : ∃ a ∈ t, p a = false := by
          rcases h with ⟨a, ha, hpa⟩
          rcases List.mem_cons.mp ha with h1 | h1
          · rw [h1] at hpa
            rw [hpa] at hc
            exact absurd hc (by simp)
          · exact ⟨a, h1, hpa⟩
        simp [List.takeWhile_cons, hc, ih ht]
      · simp [List.takeWhile_cons, hc]

lemma suffixAfterLast_not_mem (sep : Char) (cs : List Char) (h : sep ∉ cs) :
    suffixAfterLast sep cs = cs := by
  unfold suffixAfterLast
  rw [takeWhile_eq_self_of_all _ _ ?_, List.reverse_reverse]
  intro a ha
  have hmem : a ∈ cs := List.mem_reverse.mp ha
  have : a ≠ sep := by
    intro he
    rw [he] at hmem
    exact h hmem
  simpa using this

lemma suffixAfterLast_sep_cons (sep : Char) (cs : List Char) :
    suffixAfterLast sep (sep :: cs) = suffixAfterLast sep cs := by
  unfold suffixAfterLast
  rw [List.reverse_cons, takeWhile_append_singleton _ _ _ (by simp)]

lemma suffixAfterLast_cons_of_mem (sep c : Char) (cs : List Char)
    (h : sep ∈ cs) :
    suffixAfterLast sep (c :: cs) = suffixAfterLast sep cs := by
  unfold suffixAfterLast
  rw [List.reverse_cons,
    takeWhile_append_of_false_mem _ _ _ ⟨sep, List.mem_reverse.mpr h, by simp⟩]

lemma pySplitChar_getLast (sep : Char) (cs : List Char) :
    (pySplitChar sep cs).getLast? = some (suffixAfterLast sep cs) := by
  induction cs with
  | nil => rfl
  | cons c t ih =>
      by_cases hc : c = sep
      · subst hc
        rw [show pySplitChar c (c :: t) = [] :: pySplitChar c t by
              simp [pySplitChar],
            suffixAfterLast_sep_cons]
        cases htr : pySplitChar c t with
        | nil => exact absurd htr (pySplitChar_ne_nil c t)
        | cons p ps =>
            rw [htr] at ih
            rw [List.getLast?_cons_cons]
            exact ih
      · by_cases hmem : sep ∈ t
        · have hlen := two_le_length_pySplitChar sep t hmem
          cases htr : pySplitChar sep t with
          | nil => exact absurd htr (pySplitChar_ne_nil sep t)
          | cons p ps =>
              rw [htr] at ih hlen
              have h1 : pySplitChar sep (c :: t) = (c :: p) :: ps := by
                simp [pySplitChar, hc, htr]
              rw [h1, suffixAfterLast_cons_of_mem sep c t hmem]
              cases ps with
              | nil => simp [List.length_cons] at hlen
              | cons q qs =>
                  rw [List.getLast?_cons_cons] at ih ⊢
                  exact ih
        · have h1 : pySplitChar sep (c :: t) = [c :: t] := by
            simp [pySplitChar, hc, pySplitChar_of_not_mem sep t hmem]
          have h2 : sep ∉ c :: t := by
            intro hin
            rcases List.mem_cons.mp hin with h3 | h3
            · exact hc h3.symm
            · exact hmem h3
          rw [h1, suffixAfterLast_not_mem sep _ h2]
          rfl

/-- C9: for every station with a district string, `district_number` is
the Python `int` parse of the substring after the final hyphen — it
yields that integer when the suffix is a valid integer literal and
raises (propagates the `ValueError`) when it is malformed. -/
theorem district_number_suffix_parse :
    (∀ (s : WasteCollectionStation) (d : String), s.district = some d →
        s.district_number =
          (pyInt (String.mk (suffixAfterLast '-' d.data))).map some) ∧
    (∀ (s : WasteCollectionStation) (d : String) (v : Int),
        s.district = some d →
        pyInt (String.mk (suffixAfterLast '-' d.data)) = .ok v →
        s.district_number = .ok (some v)) ∧
    (∀ (s : WasteCollectionStation) (d : String) (msg : String),
        s.district = some d →
        pyInt (String.mk (suffixAfterLast '-' d.data)) = .error msg →
        s.district_number = .error msg) := by
  have key : ∀ (s : WasteCollectionStation) (d : String), s.district = some d →
      s.district_number =
        (pyInt (String.mk (suffixAfterLast '-' d.data))).map some := by
    intro s d hd
    simp [WasteCollectionStation.district_number, hd, pySplitChar_getLast]
  refine ⟨key, ?_, ?_⟩
  · intro s d v hd hv
    rw [key s d hd, hv]
    rfl
  · intro s d msg hd hv
    rw [key s d hd, hv]
    rfl

/-- Witness for C9 at districts `praha-7` (well-formed) and `praha-x`
(malformed suffix). -/
theorem district_number_suffix_parse_witness :
    ({ id := 1, name := "w", district := some "praha-7" } :
        WasteCollectionStation).district_number = .ok (some 7) ∧
    ({ id := 1, name := "w", district := some "praha-x" } :
        WasteCollectionStation).district_number =
      .error "ValueError: invalid literal for int" :=
  ⟨district_number_suffix_parse.2.1
      { id := 1, name := "w", district := some "praha-7" } "praha-7" 7 rfl rfl,
   district_number_suffix_parse.2.2
      { id := 1, name := "w", district := some "praha-x" } "praha-x"
      "ValueError: invalid literal for int" rfl rfl⟩

/-- Witness for C8 at ids 42 (in range) and 5 (out of range). -/
theorem period_two_digit_contract_witness :
    ({ id := some 42 } : CleaningFrequency).period = .ok (some 4) ∧
    ({ id := some 5 } : CleaningFrequency).period =
      .error "ValueError: The value must be a two-digit integer" := by
  constructor
  · have h := period_two_digit_contract.1 { id := some 42 } 42 rfl
      (by norm_num) (by norm_num)
    simpa using h
  · exact period_two_digit_contract.2 { id := some 5 } 5 rfl (by norm_num)

lemma getWSFrom_ok {α : Type} (respond : Nat → MockResponse α) (hp : Rat)
    (m a : Nat) (hr : (respond (a - 1)).status / 100 = 2) :
    getWasteStationsFrom respond hp m a = (.ok (respond (a - 1)).body, []) := by
  rw [getWasteStationsFrom.eq_def]
  simp only [hr, if_pos]

lemma getWSFrom_raise {α : Type} (respond : Nat → MockResponse α) (hp : Rat)
    (m a : Nat) (h2 : (respond (a - 1)).status / 100 ≠ 2)
    (hr : (respond (a - 1)).status ≠ 429 ∨ m < a) :
    getWasteStationsFrom respond hp m a =
      (.error (respond (a - 1)).status, []) := by
  rw [getWasteStationsFrom.eq_def]
  rw [if_neg h2, dif_pos hr]

lemma getWSFrom_retry {α : Type} (respond : Nat → MockResponse α) (hp : Rat)
    (m a : Nat) (hr : (respond (a - 1)).status = 429) (ha : a ≤ m) :
    getWasteStationsFrom respond hp m a =
      ((getWasteStationsFrom respond hp m (a + 1)).1,
        hp :: (getWasteStationsFrom respond hp m (a + 1)).2) := by
  rw [getWasteStationsFrom.eq_def]
  have h2 : ¬((respond (a - 1)).status / 100 = 2) := by
    rw [hr]
    norm_num
  have h3 : ¬((respond (a - 1)).status ≠ 429 ∨ m < a) := by
    push_neg
    exact ⟨hr, ha⟩
  rw [if_neg h2, dif_neg h3]

/-- C2: a non-2xx, non-429 first response raises that HTTP error with
no sleep; a server answering 429 exactly twice then 200 completes
successfully when the retry ceiling is at least 2, sleeping
`rate_limit_period / 2` seconds before each of the two retries, and
raises the 429 error when the ceiling is 1, sleeping once before the
single retry. -/
theorem retry_on_429_with_half_period_sleep :
    (∀ (α : Type) (respond : Nat → MockResponse α) (period m : Nat),
        (respond 0).status / 100 ≠ 2 → (respond 0).status ≠ 429 →
        getWasteStations respond period m =
          (.error (respond 0).status, [])) ∧
    (∀ (α : Type) (page : α) (period m : Nat), 2 ≤ m →
        getWasteStations (respond429Twice page) period m =
          (.ok page, [(period : Rat) / 2, (period : Rat) / 2])) ∧
    (∀ (α : Type) (page : α) (period : Nat),
        getWasteStations (respond429Twice page) period 1 =
          (.error 429, [(period : Rat) / 2])) := by
  refine ⟨?_, ?_, ?_⟩
  · intro α respond period m h2 h429
    have h := getWSFrom_raise respond ((period : Rat) / 2) m 1
      (by simpa using h2) (Or.inl (by simpa using h429))
    rw [getWasteStations, h]
  · intro α page period m hm
    have e0 : respond429Twice page (1 - 1) = ⟨429, page⟩ := by
      norm_num [respond429Twice]
    have e1 : respond429Twice page (2 - 1) = ⟨429, page⟩ := by
      norm_num [respond429Twice]
    have e2 : respond429Twice page (3 - 1) = ⟨200, page⟩ := by
      norm_num [respond429Twice]
    have s1 := getWSFrom_retry (respond429Twice page) ((period : Rat) / 2) m 1
      (by rw [e0]) (by omega)
    have s2 := getWSFrom_retry (respond429Twice page) ((period : Rat) / 2) m 2
      (by rw [e1]) (by omega)
    have s3 := getWSFrom_ok (respond429Twice page) ((period : Rat) / 2) m 3
      (by simp [e2])
    rw [getWasteStations, s1, s2, s3, e2]
  · intro α page period
    have e0 : respond429Twice page (1 - 1) = ⟨429, page⟩ := by
      norm_num [respond429Twice]
    have e1 : respond429Twice page (2 - 1) = ⟨429, page⟩ := by
      norm_num [respond429Twice]
    have s1 := getWSFrom_retry (respond429Twice page) ((period : Rat) / 2) 1 1
      (by rw [e0]) (le_refl 1)
    have s2 := getWSFrom_raise (respond429Twice page) ((period : Rat) / 2) 1 2
      (by rw [e1]; norm_num) (Or.inr (by omega))
    rw [getWasteStations, s1, s2, e1]

/-- Witness for C2: 429-twice-then-200 with ceiling 2 succeeds after
two half-period sleeps (period 20, so 10 seconds each). -/
theorem retry_on_429_with_half_period_sleep_witness :
    getWasteStations (respond429Twice "page") 20 2 =
      (.ok "page", [(10 : Rat), 10]) := by
  have h := retry_on_429_with_half_period_sleep.2.1 String "page" 20 2 (le_refl 2)
  rw [h]
  norm_num

lemma replicate_ne_nil_of_pos {α : Type} (n : Nat) (a : α) (hn : n ≠ 0) :
    List.replicate n a ≠ [] := by
  intro h
  apply hn
  have h2 := congrArg List.length h
  simpa using h2

lemma iterWS_yield_empty {α : Type} (fetch : Int → Option (List α))
    (limit : Option Int) (offset : Int) (fuel : Nat)
    (h : (fetch offset).getD [] = []) :
    iterWasteStations fetch limit offset (fuel + 1) = [fetch offset] := by
  simp only [iterWasteStations]
  rw [h]
  simp

lemma iterWS_yield_short {α : Type} (fetch : Int → Option (List α)) (l : Int)
    (offset : Int) (fuel : Nat) (hne : (fetch offset).getD [] ≠ [])
    (hl : l ≠ 0) (hshort : (((fetch offset).getD []).length : Int) < l) :
    iterWasteStations fetch (some l) offset (fuel + 1) = [fetch offset] := by
  simp only [iterWasteStations]
  rcases List.exists_cons_of_ne_nil hne with ⟨q, qs, hq⟩
  rw [hq] at hshort ⊢
  rw [if_neg (by simp : ¬((q :: qs).isEmpty = true)),
    if_pos (by simp [optIntTruthy, hl] : optIntTruthy (some l) = true)]
  simp only [Option.getD_some]
  rw [if_pos hshort]

lemma iterWS_advance_limit {α : Type} (fetch : Int → Option (List α)) (l : Int)
    (offset : Int) (fuel : Nat) (hne : (fetch offset).getD [] ≠ [])
    (hl : l ≠ 0) (hlong : ¬(((fetch offset).getD []).length : Int) < l) :
    iterWasteStations fetch (some l) offset (fuel + 1) =
      fetch offset :: iterWasteStations fetch (some l) (offset + l) fuel := by
  simp only [iterWasteStations]
  rcases List.exists_cons_of_ne_nil hne with ⟨q, qs, hq⟩
  rw [hq] at hlong ⊢
  rw [if_neg (by simp : ¬((q :: qs).isEmpty = true)),
    if_pos (by simp [optIntTruthy, hl] : optIntTruthy (some l) = true)]
  simp only [Option.getD_some]
  rw [if_neg hlong]

lemma iterWS_advance_len {α : Type} (fetch : Int → Option (List α))
    (limit : Option Int) (offset : Int) (fuel : Nat)
    (hne : (fetch offset).getD [] ≠ []) (hfalsy : optIntTruthy limit = false) :
    iterWasteStations fetch limit offset (fuel + 1) =
      fetch offset ::
        iterWasteStations fetch limit
          (offset + ((fetch offset).getD []).length) fuel := by
  simp only [iterWasteStations]
  rcases List.exists_cons_of_ne_nil hne with ⟨q, qs, hq⟩
  rw [hq]
  rw [if_neg (by simp : ¬((q :: qs).isEmpty = true)),
    if_neg (by rw [hfalsy]; simp : ¬(optIntTruthy limit = true))]

/-- C1: the pagination loop yields each fetched page and stops when a
page is empty, or — with a truthy (non-`None`, non-zero) limit — when a
page is shorter than the limit; otherwise the offset advances by the
limit when one is set, and by the returned feature count when the limit
is falsy.  Against mock pages of sizes 10000, 10000, 4321 with limit
10000 exactly three pages are yielded; against three full pages of
10000, a fourth request returning an empty page is issued and yielded,
and the sequence stops there. -/
theorem pagination_termination_and_offset_advance :
    (∀ (α : Type) (fetch : Int → Option (List α)) (limit : Option Int)
        (offset : Int) (fuel : Nat), (fetch offset).getD [] = [] →
        iterWasteStations fetch limit offset (fuel + 1) = [fetch offset]) ∧
    (∀ (α : Type) (fetch : Int → Option (List α)) (l : Int) (offset : Int)
        (fuel : Nat), (fetch offset).getD [] ≠ [] → l ≠ 0 →
        ((((fetch offset).getD []).length : Int) < l →
          iterWasteStations fetch (some l) offset (fuel + 1) =
            [fetch offset]) ∧
        (¬(((fetch offset).getD []).length : Int) < l →
          iterWasteStations fetch (some l) offset (fuel + 1) =
            fetch offset ::
              iterWasteStations fetch (some l) (offset + l) fuel)) ∧
    (∀ (α : Type) (fetch : Int → Option (List α)) (limit : Option Int)
        (offset : Int) (fuel : Nat), (fetch offset).getD [] ≠ [] →
        optIntTruthy limit = false →
        iterWasteStations fetch limit offset (fuel + 1) =
          fetch offset ::
            iterWasteStations fetch limit
              (offset + ((fetch offset).getD []).length) fuel) ∧
    (iterWasteStations mockFetchShort (some 10000) 0 10 =
      [some (List.replicate 10000 0), some (List.replicate 10000 0),
        some (List.replicate 4321 0)]) ∧
    (iterWasteStations mockFetchFull (some 10000) 0 10 =
      [some (List.replicate 10000 0), some (List.replicate 10000 0),
        some (List.replicate 10000 0), some []]) := by
  have f0 : mockFetchShort 0 = some (List.replicate 10000 0) := by
    norm_num [mockFetchShort]
  have f1 : mockFetchShort 10000 = some (List.replicate 10000 0) := by
    norm_num [mockFetchShort]
  have f2 : mockFetchShort 20000 = some (List.replicate 4321 0) := by
    norm_num [mockFetchShort]
  have g0 : mockFetchFull 0 = some (List.replicate 10000 0) := by
    norm_num [mockFetchFull]
  have g1 : mockFetchFull 10000 = some (List.replicate 10000 0) := by
    norm_num [mockFetchFull]
  have g2 : mockFetchFull 20000 = some (List.replicate 10000 0) := by
    norm_num [mockFetchFull]
  have g3 : mockFetchFull 30000 = some [] := by
    norm_num [mockFetchFull]
  have hrep : List.replicate 10000 (0 : Nat) ≠ [] :=
    replicate_ne_nil_of_pos 10000 0 (by norm_num)
  have hrep2 : List.replicate 4321 (0 : Nat) ≠ [] :=
    replicate_ne_nil_of_pos 4321 0 (by norm_num)
  refine ⟨fun α => @iterWS_yield_empty α, ?_, fun α => @iterWS_advance_len α,
    ?_, ?_⟩
  · intro α fetch l offset fuel hne hl
    exact ⟨@iterWS_yield_short α fetch l offset fuel hne hl,
      @iterWS_advance_limit α fetch l offset fuel hne hl⟩
  · have step0 := @iterWS_advance_limit Nat mockFetchShort 10000 0 9
      (by rw [f0, Option.getD_some]; exact hrep) (by norm_num)
      (by rw [f0, Option.getD_some, List.length_replicate]; norm_num)
    have step1 := @iterWS_advance_limit Nat mockFetchShort 10000 10000 8
      (by rw [f1, Option.getD_some]; exact hrep) (by norm_num)
      (by rw [f1, Option.getD_some, List.length_replicate]; norm_num)
    have step2 := @iterWS_yield_short Nat mockFetchShort 10000 20000 7
      (by rw [f2, Option.getD_some]; exact hrep2) (by norm_num)
      (by rw [f2, Option.getD_some, List.length_replicate]; norm_num)
    rw [show (10 : Nat) = 9 + 1 from rfl, step0, f0,
      show ((0 : Int) + 10000) = 10000 from by norm_num,
      show (9 : Nat) = 8 + 1 from rfl, step1, f1,
      show ((10000 : Int) + 10000) = 20000 from by norm_num,
      show (8 : Nat) = 7 + 1 from rfl, step2, f2]
  · have step0 := @iterWS_advance_limit Nat mockFetchFull 10000 0 9
      (by rw [g0, Option.getD_some]; exact hrep) (by norm_num)
      (by rw [g0, Option.getD_some, List.length_replicate]; norm_num)
    have step1 := @iterWS_advance_limit Nat mockFetchFull 10000 10000 8
      (by rw [g1, Option.getD_some]; exact hrep) (by norm_num)
      (by rw [g1, Option.getD_some, List.length_replicate]; norm_num)
    have step2 := @iterWS_advance_limit Nat mockFetchFull 10000 20000 7
      (by rw [g2, Option.getD_some]; exact hrep) (by norm_num)
      (by rw [g2, Option.getD_some, List.length_replicate]; norm_num)
    have step3 := @iterWS_yield_empty Nat mockFetchFull (some 10000) 30000 6
      (by rw [g3]; rfl)
    rw [show (10 : Nat) = 9 + 1 from rfl, step0, g0,
      show ((0 : Int) + 10000) = 10000 from by norm_num,
      show (9 : Nat) = 8 + 1 from rfl, step1, g1,
      show ((10000 : Int) + 10000) = 20000 from by norm_num,
      show (8 : Nat) = 7 + 1 from rfl, step2, g2,
      show ((20000 : Int) + 10000) = 30000 from by norm_num,
      show (7 : Nat) = 6 + 1 from rfl, step3, g3]

/-- Witness for C1: a server whose first page is empty yields exactly
that single empty page. -/
theorem pagination_termination_witness :
    iterWasteStations (fun _ => (some [] : Option (List Nat)))
      (some 10000) 5 (0 + 1) = [some []] :=
  pagination_termination_and_offset_advance.1 Nat
    (fun _ => some []) (some 10000) 5 0 rfl

/-- C4 (divergence witness): district numbers 7 and 10 do serialize to
the exact string `praha-7,praha-10`, but serializing a non-empty
accessibilities set raises a `TypeError` — `EAccessibilityType` members
carry integer values and `','.join` rejects non-string items — so the
dump of the query object from the claim raises instead of producing
`accessibilities=ACCESSIBLE`, and every field of an otherwise-unset
query object is absent (the empty dump). -/
theorem accessibilities_serialization_raises :
    ser_district_numbers [7, 10] = .ok "praha-7,praha-10" ∧
    ser_accessibilities [.ACCESSIBLE] =
      .error "TypeError: sequence item: expected str instance" ∧
    getParamsDump exampleGetParams =
      .error "TypeError: sequence item: expected str instance" ∧
    getParamsDump {} = .ok [] :=
  ⟨rfl, rfl, rfl, rfl⟩

end Praguematic
